import Mathlib

/-!
# ptbatt: battery status acquisition and display mapping

A shallow embedding of `src/plugins/ptbatt/ptbatt.c` (the pi-top / laptop
battery applet of lxpanel) and theorems about it.

* C `int` values are `Int`; where a value is produced by a C library
  conversion that can leave the 32-bit range, the wrap or saturation is
  written out (`wrap32`, `sat32`).
* `status_t` is a C enum, i.e. an `int`; the code casts an unchecked `int`
  to it, so it is embedded as `Int` with the four named constants.
* Byte buffers are `List Char`; a C string is the prefix before the first NUL.
* Calls into the toolkit (`draw_icon`, `gtk_widget_set_tooltip_text`) are
  recorded as a list of `UICall`s, in program order.
-/

namespace PtBatt

/-! ## Battery states -/

/-- The C enum `status_t` (an `int`). -/
abbrev status_t := Int

/-- The constant `STAT_UNKNOWN = -1`. -/
def STAT_UNKNOWN : status_t := -1
/-- The constant `STAT_DISCHARGING = 0`. -/
def STAT_DISCHARGING : status_t := 0
/-- The constant `STAT_CHARGING = 1`. -/
def STAT_CHARGING : status_t := 1
/-- The constant `STAT_EXT_POWER = 2`. -/
def STAT_EXT_POWER : status_t := 2

/-- What one call of `charge_level` hands back: the return value (capacity)
and the two out-parameters `*status` and `*tim`. -/
structure Reading where
  capacity : Int
  status : status_t
  tim : Int
  deriving DecidableEq

/-! ## `charge_level`, TEST_MODE variant -/

/-- The `#ifdef TEST_MODE` body of `charge_level`.  The function-static
`level` is passed in and its new value is returned with the reading. -/
def charge_level_test (level : Int) : Int × Reading :=
  let tim := 30
  let level := if level < 100 then level + 5 else -100
  if level < 0 then
    (level, { capacity := level * -1, status := STAT_DISCHARGING, tim := tim })
  else if level = 100 then
    (level, { capacity := level, status := STAT_EXT_POWER, tim := tim })
  else
    (level, { capacity := level, status := STAT_CHARGING, tim := tim })

/-- Value of the static `level` after `n` queries, the first one made with
`level = 0` (its C initialiser). -/
def test_level (n : Nat) : Int :=
  (fun l => (charge_level_test l).1)^[n] 0

/-- Reading returned by query number `n + 1` of the synthetic source. -/
def test_query (n : Nat) : Reading :=
  (charge_level_test (test_level n)).2

/-- Readings of the first `n` successive queries. -/
def test_queries (n : Nat) : List Reading :=
  (List.range n).map test_query

/-! ## C library models: `sscanf`, `sprintf`, `strcasecmp`, `int` range -/

/-- Saturation to the range of a 32-bit `long`: what the `%d` conversion of
glibc `sscanf` (through `strtol`) stores on the 32-bit ARM target this code is
compiled for (`#ifdef __arm__`) when the digits denote a value outside the
range. -/
def sat32 (x : Int) : Int :=
  if x < -2147483648 then -2147483648 else if x > 2147483647 then 2147483647 else x

/-- Two's-complement wrap of a 32-bit `int` result. -/
def wrap32 (x : Int) : Int :=
  (x + 2147483648) % 4294967296 - 2147483648

/-- The byte that ends a C string. -/
def NUL : Char := Char.ofNat 0

/-- The C string held in a buffer: the bytes before the first NUL. -/
def cstr : List Char → List Char
  | [] => []
  | c :: cs => if c = NUL then [] else c :: cstr cs

/-- The C function `isspace` in the C locale: space, `\t`, `\n`, `\v`, `\f`, `\r`. -/
def isspace (c : Char) : Bool :=
  c.toNat = 32 || (9 ≤ c.toNat && c.toNat ≤ 13)

/-- The C function `isdigit`. -/
def isdigit (c : Char) : Bool :=
  48 ≤ c.toNat && c.toNat ≤ 57

/-- Value of a decimal digit character. -/
def digitVal (c : Char) : Nat :=
  c.toNat - 48

/-- The C function `tolower` in the C locale. -/
def tolower (c : Char) : Char :=
  if 65 ≤ c.toNat && c.toNat ≤ 90 then Char.ofNat (c.toNat + 32) else c

/-- Leading white space is skipped by a `%d` directive. -/
def skipSpace : List Char → List Char
  | [] => []
  | c :: cs => if isspace c then skipSpace cs else c :: cs

/-- The maximal run of decimal digits, accumulated left to right. -/
def scanDigits (acc : Nat) : List Char → Nat × List Char
  | [] => (acc, [])
  | c :: cs => if isdigit c then scanDigits (acc * 10 + digitVal c) cs else (acc, c :: cs)

/-- Outcome of one `%d` directive. -/
inductive Conv where
  /-- End of input before any character of the item. -/
  | input_failure
  /-- The input does not start with a decimal integer. -/
  | matching_failure
  /-- A value was converted; `rest` is the unread input. -/
  | ok (v : Int) (rest : List Char)
  deriving DecidableEq

/-- One `%d` directive of `sscanf`: skip white space, optional sign, digits. -/
def scan_d (s : List Char) : Conv :=
  match skipSpace s with
  | [] => Conv.input_failure
  | c :: cs =>
    let neg := decide (c = '-')
    let body := if c = '-' ∨ c = '+' then cs else c :: cs
    match body with
    | [] => Conv.matching_failure
    | d :: _ =>
      if isdigit d then
        let r := scanDigits 0 body
        Conv.ok (sat32 (if neg then -(r.1 : Int) else (r.1 : Int))) r.2
      else Conv.matching_failure

/-- The values converted by the first `n` repetitions of `%d|` in a format:
conversion stops at the first `%d` that fails or the first `|` that does not
match. -/
def scan_fields : Nat → List Char → List Int
  | 0, _ => []
  | n + 1, s =>
    match scan_d s with
    | Conv.ok v rest =>
      v :: (match rest with
            | '|' :: rest' => scan_fields n rest'
            | _ => [])
    | _ => []

/-- The constant `EOF`, returned by `sscanf` on input failure before the first conversion. -/
def EOF : Int := -1

/-- The call of `sscanf` with the format `%d|%d|%d|%d|`: the return value and the converted
values in order.  The trailing `|` of the format comes after the last
conversion, so it cannot change either. -/
def sscanf4 (s : List Char) : Int × List Int :=
  match scan_fields 4 s with
  | [] =>
    (match scan_d s with
     | Conv.input_failure => (EOF, [])
     | _ => (0, []))
  | v :: vs => (((v :: vs).length : Int), v :: vs)

/-- Decimal digits of a natural number (`fuel` bounds the recursion; any
`fuel > n` is enough). -/
def natDigits : Nat → Nat → List Char
  | 0, _ => []
  | fuel + 1, n =>
    if n < 10 then [Char.ofNat (48 + n)]
    else natDigits fuel (n / 10) ++ [Char.ofNat (48 + n % 10)]

/-- The conversion `%d` of `sprintf`. -/
def fmt_d (v : Int) : List Char :=
  if v < 0 then '-' :: natDigits (v.natAbs + 1) v.natAbs
  else natDigits (v.natAbs + 1) v.natAbs

/-- The C function `strcasecmp` on two NUL-terminated buffers (the end of a list counts as
the terminator). -/
def strcasecmp : List Char → List Char → Int
  | [], [] => 0
  | [], b :: _ => ((tolower NUL).toNat : Int) - (tolower b).toNat
  | a :: _, [] => ((tolower a).toNat : Int) - (tolower NUL).toNat
  | a :: as, b :: bs =>
    if tolower a ≠ tolower b then ((tolower a).toNat : Int) - (tolower b).toNat
    else if a = NUL then 0
    else strcasecmp as bs

/-! ## Floating point: `time / 60.0` stored in a `float`, printed with `%0.1f` -/

/-- A finite floating-point value: sign and exact magnitude `num / den`. -/
structure FVal where
  neg : Bool
  num : Nat
  den : Nat
  deriving DecidableEq

/-- Nearest integer to `a / b`, ties to even (the IEEE 754 default rounding,
also used by glibc `printf`). -/
def rne (a b : Nat) : Nat :=
  let q := a / b
  let r := a % b
  if 2 * r < b then q
  else if b < 2 * r then q + 1
  else if q % 2 = 0 then q else q + 1

/-- How many doublings bring `num / den` up to at least `2 ^ (p - 1)`. -/
def expUp : Nat → Nat → Nat → Nat → Nat
  | 0, _, _, _ => 0
  | fuel + 1, p, num, den =>
    if num < den * 2 ^ (p - 1) then expUp fuel p (2 * num) den + 1 else 0

/-- How many halvings bring `num / den` below `2 ^ p`. -/
def expDown : Nat → Nat → Nat → Nat → Nat
  | 0, _, _, _ => 0
  | fuel + 1, p, num, den =>
    if den * 2 ^ p ≤ num then expDown fuel p num (2 * den) + 1 else 0

/-- Rounding of the positive real `num / den` to `p` significant bits, ties to
even, as numerator and denominator of the result.  Exponent range is not
limited: exact for values in the normal range of the format, which contains
every `int / 60`. -/
def round_bin (p num den : Nat) : Nat × Nat :=
  if num = 0 then (0, 1)
  else
    let a := expUp 2048 p num den
    let b := expDown 2048 p num den
    (rne (num * 2 ^ a) (den * 2 ^ b) * 2 ^ b, 2 ^ a)

/-- The C expression `time / 60.0` assigned to `float ftime`: `time` is
converted to `double` (exact), divided by `60.0` in `double` (53 bits), and
the quotient is rounded to `float` (24 bits). -/
def ftime_of (time : Int) : FVal :=
  let d := round_bin 53 time.natAbs 60
  let f := round_bin 24 d.1 d.2
  { neg := decide (time < 0), num := f.1, den := f.2 }

/-- The conversion `%0.1f` of `sprintf` for a finite value: the exact value rounded to one
decimal, ties to even. -/
def fmt_0_1f (v : FVal) : List Char :=
  let n := rne (v.num * 10) v.den
  (if v.neg then ['-'] else []) ++ natDigits (n / 10 + 1) (n / 10) ++ '.' :: natDigits 1 (n % 10)

/-! ## Plug-in data and the battery device -/

/-- The fields of `battery` (declared in `batt_sys.h`) that `charge_level`
reads. -/
structure battery where
  state : List Char
  seconds : Int
  percentage : Int
  deriving DecidableEq

/-- The two functions of `batt_sys.h` that `charge_level` calls; their bodies
are not part of `ptbatt.c`, so they are parameters.  `battery_update`
refreshes the device in place (here: returns the refreshed device). -/
structure BattSys where
  battery_update : battery → battery
  battery_is_charging : battery → Bool

/-- The fields of `PtBattPlugin` that decide a query: the battery handle
(`none` is `NULL`), the device-manager flag, and whether the socket pointer
`requester` is non-`NULL`. -/
structure PtBattPlugin where
  batt : Option battery
  pt_batt_avail : Bool
  requester : Bool
  deriving DecidableEq

/-- One call into the toolkit made by `update_icon` or `run`. -/
inductive UICall where
  /-- A call `draw_icon (pt, lev, r, g, b, powered)`. -/
  | draw_icon (lev : Int) (r g b : ℚ) (powered : Int)
  /-- A call `gtk_widget_set_tooltip_text (pt->tray_icon, str)`. -/
  | set_tooltip_text (str : List Char)
  deriving DecidableEq

/-! ## `charge_level` -/

/-- The function `charge_level` without TEST_MODE.  `rx` is the outcome of the
non-blocking `zmq_recv` into `buffer[100]`: `none` when it returns `-1`, else
the message, whose length is the returned `res`.  The acknowledgment
`zmq_send` of the token 118 does not touch the reading and is left out.  The
local `capacity` is returned only on the path that assigned it.  The refreshed
battery is read but not handed back. -/
def charge_level (sys : BattSys) (pt : PtBattPlugin) (rx : Option (List Char)) : Reading :=
  let unknown : Reading := { capacity := -1, status := STAT_UNKNOWN, tim := 0 }
  if pt.pt_batt_avail then
    if !pt.requester then unknown
    else
      let res : Int := match rx with
        | none => -1
        | some m => (m.length : Int)
      let r : Reading :=
        if 0 < res ∧ res < 100 then
          let buffer := cstr (rx.getD [])
          let sc := sscanf4 buffer
          if sc.1 = 4 then
            match sc.2 with
            | [res, state, capacity, time] =>
              if res = 218 ∧
                  (state = STAT_CHARGING ∨ state = STAT_DISCHARGING ∨ state = STAT_EXT_POWER) then
                { capacity := capacity,
                  status := if capacity = 100 ∧ time = 0 then STAT_EXT_POWER else state,
                  tim := time }
              else unknown
            | _ => unknown
          else unknown
        else unknown
      if r.status ≠ STAT_UNKNOWN then r else { r with capacity := -1 }
  else
    match pt.batt with
    | some b =>
      let b := sys.battery_update b
      let status :=
        if sys.battery_is_charging b then
          (if strcasecmp b.state "full".toList = 0 then STAT_EXT_POWER else STAT_CHARGING)
        else STAT_DISCHARGING
      let mins := b.seconds
      let mins := Int.tdiv mins 60
      { capacity := b.percentage, status := status, tim := mins }
    | none => unknown

/-! ## `draw_icon`: geometry of the fill -/

/-- Icon width `w` for panel icon size `ic`. -/
def draw_icon_w (ic : Int) : Int :=
  if ic < 36 then 36 else ic

/-- Icon height `h` for panel icon size `ic`. -/
def draw_icon_h (ic : Int) : Int :=
  let w := draw_icon_w ic
  let h := wrap32 (Int.tdiv (wrap32 (w * 10)) 36 * 2)
  let h := if h < 18 then 18 else h
  if h ≥ ic then ic - 2 else h

/-- Width `f` of the filled rectangle drawn by `draw_icon` for panel icon
size `ic` and level `lev`. -/
def draw_icon_f (ic lev : Int) : Int :=
  let w := draw_icon_w ic
  if lev < 0 then 0
  else if lev > 97 then w - 12
  else
    let f := wrap32 ((w - 12) * lev)
    let f := Int.tdiv f 97
    if f > w - 12 then w - 12 else f

/-! ## `update_icon` (timer-driven) -/

/-- The function `update_icon`: query, then map the reading to the toolkit calls.  The
message catalogue lookup `_()` is the identity (untranslated texts). -/
def update_icon (sys : BattSys) (pt : PtBattPlugin) (rx : Option (List Char)) : List UICall :=
  let rd := charge_level sys pt rx
  let capacity := rd.capacity
  let status := rd.status
  let time := rd.tim
  if status = STAT_UNKNOWN then []
  else
    let ftime := ftime_of time
    if status = STAT_CHARGING then
      let str :=
        if time ≤ 0 then
          "Charging : ".toList ++ fmt_d capacity ++ "%".toList
        else if time < 90 then
          "Charging : ".toList ++ fmt_d capacity ++ "%\nTime remaining : ".toList
            ++ fmt_d time ++ " minutes".toList
        else
          "Charging : ".toList ++ fmt_d capacity ++ "%\nTime remaining : ".toList
            ++ fmt_0_1f ftime ++ " hours".toList
      [UICall.draw_icon capacity 0.95 0.64 0 1, UICall.set_tooltip_text str]
    else if status = STAT_EXT_POWER then
      let str := "Charged : ".toList ++ fmt_d capacity ++ "%\nOn external power".toList
      [UICall.draw_icon capacity 0 0.85 0 2, UICall.set_tooltip_text str]
    else
      let str :=
        if time ≤ 0 then
          "Discharging : ".toList ++ fmt_d capacity ++ "%".toList
        else if time < 90 then
          "Discharging : ".toList ++ fmt_d capacity ++ "%\nTime remaining : ".toList
            ++ fmt_d time ++ " minutes".toList
        else
          "Discharging : ".toList ++ fmt_d capacity ++ "%\nTime remaining : ".toList
            ++ fmt_0_1f ftime ++ " hours".toList
      if capacity ≤ 20 then
        [UICall.draw_icon capacity 1 0 0 0, UICall.set_tooltip_text str]
      else
        [UICall.draw_icon capacity 0 0.85 0 0, UICall.set_tooltip_text str]

/-! ## `run` (event-driven) -/

/-- The locals `res`, `state`, `capacity`, `time` of `run` after `sscanf`:
the converted values, and for the variables `sscanf` did not reach the
indeterminate values `g` they had before. -/
def run_locals (g : Int × Int × Int × Int) (vals : List Int) : Int × Int × Int × Int :=
  (vals.getD 0 g.1, vals.getD 1 g.2.1, vals.getD 2 g.2.2.1, vals.getD 3 g.2.2.2)

/-- One iteration of the `while` loop of `run`.  `poll` is the result of
`zmq_poll`, `rx` the message `receiveMessage` copied into `message[200]`
(`none` when it returns `False`), `g` the indeterminate initial contents of
the four uninitialised locals.  The trace written through `system` is not a
toolkit call and is left out.  The embedding describes messages that fit
`message[200]`. -/
def run_iter (g : Int × Int × Int × Int) (poll : Int) (rx : Option (List Char)) : List UICall :=
  if poll < 0 then []
  else if poll = 0 then []
  else
    match rx with
    | none => []
    | some m =>
      let message := cstr m
      let sc := sscanf4 message
      let v := run_locals g sc.2
      let state := v.2.1
      let capacity := v.2.2.1
      let time := v.2.2.2
      if sc.1 ≠ 0 then
        if state = STAT_CHARGING ∨ state = STAT_DISCHARGING ∨ state = STAT_EXT_POWER then
          let state := if capacity = 100 ∧ time = 0 then STAT_EXT_POWER else state
          if state = STAT_UNKNOWN then []
          else
            let ftime := ftime_of time
            if state = STAT_CHARGING then
              let str :=
                if time ≤ 0 then
                  "Charging : ".toList ++ fmt_d capacity ++ "%".toList
                else if time < 90 then
                  "Charging : ".toList ++ fmt_d capacity ++ "%\nTime remaining : ".toList
                    ++ fmt_d time ++ " minutes".toList
                else
                  "Charging : ".toList ++ fmt_d capacity ++ "%\nTime remaining : ".toList
                    ++ fmt_0_1f ftime ++ " hours".toList
              [UICall.draw_icon capacity 0.95 0.64 0 1, UICall.set_tooltip_text str]
            else if state = STAT_EXT_POWER then
              let str := "Charged : ".toList ++ fmt_d capacity ++ "%\nOn external power".toList
              [UICall.draw_icon capacity 0 0.85 0 2, UICall.set_tooltip_text str]
            else
              let str :=
                if time ≤ 0 then
                  "Discharging : ".toList ++ fmt_d capacity ++ "%".toList
                else if time < 90 then
                  "Discharging : ".toList ++ fmt_d capacity ++ "%\nTime remaining : ".toList
                    ++ fmt_d time ++ " minutes".toList
                else
                  "Discharging : ".toList ++ fmt_d capacity ++ "%\nTime remaining : ".toList
                    ++ fmt_0_1f ftime ++ " hours".toList
              if capacity ≤ 20 then
                [UICall.draw_icon capacity 1 0 0 0, UICall.set_tooltip_text str]
              else
                [UICall.draw_icon capacity 0 0.85 0 0, UICall.set_tooltip_text str]
        else []
      else []

/-! ## Wire records -/

/-- The wire record of the device-manager feed as the interface describes it:
`<magic>|<state>|<capacity>|<minutes>|`, each field a decimal `int`. -/
def render_record (magic state capacity minutes : Int) : List Char :=
  fmt_d magic ++ '|' :: (fmt_d state ++ '|' :: (fmt_d capacity ++ '|' :: (fmt_d minutes ++ ['|'])))

/-- The values of a 32-bit `int`. -/
def isInt32 (x : Int) : Prop :=
  -2147483648 ≤ x ∧ x ≤ 2147483647

instance (x : Int) : Decidable (isInt32 x) := by
  unfold isInt32
  infer_instance

/-- A plug-in instance that talks to the device manager over an open socket. -/
def dmPlugin : PtBattPlugin :=
  { batt := none, pt_batt_avail := true, requester := true }

/-! ## Notions used to state the properties -/

/-- The reading of a query that found nothing usable. -/
def unknownReading : Reading :=
  { capacity := -1, status := STAT_UNKNOWN, tim := 0 }

/-- A `batt_sys` whose refresh changes nothing and whose device never charges. -/
def idleBattSys : BattSys :=
  { battery_update := fun b => b, battery_is_charging := fun _ => false }

/-- The tooltip texts set by a sequence of toolkit calls. -/
def tooltips : List UICall → List (List Char)
  | [] => []
  | UICall.set_tooltip_text str :: cs => str :: tooltips cs
  | UICall.draw_icon _ _ _ _ _ :: cs => tooltips cs

/-- The arguments `(lev, r, g, b, powered)` of the `draw_icon` calls in a
sequence of toolkit calls. -/
def draws : List UICall → List (Int × ℚ × ℚ × ℚ × Int)
  | [] => []
  | UICall.draw_icon lev r g b powered :: cs => (lev, r, g, b, powered) :: draws cs
  | UICall.set_tooltip_text _ :: cs => draws cs

/-- The pieces of a record between its `|` characters. -/
def splitPipe : List Char → List (List Char)
  | [] => [[]]
  | c :: cs =>
    if c = '|' then [] :: splitPipe cs
    else
      match splitPipe cs with
      | f :: fs => (c :: f) :: fs
      | [] => [[c]]

/-- A decimal integer: an optional `-` and at least one digit. -/
def isIntLit (s : List Char) : Bool :=
  match s with
  | '-' :: ds => !ds.isEmpty && ds.all isdigit
  | ds => !ds.isEmpty && ds.all isdigit

/-- The record has the form `<int>|<int>|<int>|<int>|` of the wire format:
exactly four integer fields, each followed by a `|`, and nothing else. -/
def has_wire_form (s : List Char) : Bool :=
  match splitPipe s with
  | [a, b, c, d, []] => isIntLit a && isIntLit b && isIntLit c && isIntLit d
  | _ => false

/-- The data model of a Reading: capacity 0..100 or the sentinel -1, minutes
not negative, status one of the four battery states. -/
def data_model (rd : Reading) : Prop :=
  ((0 ≤ rd.capacity ∧ rd.capacity ≤ 100) ∨ rd.capacity = -1) ∧ 0 ≤ rd.tim ∧
  (rd.status = STAT_UNKNOWN ∨ rd.status = STAT_DISCHARGING ∨ rd.status = STAT_CHARGING ∨
    rd.status = STAT_EXT_POWER)

instance (rd : Reading) : Decidable (data_model rd) := by
  unfold data_model
  infer_instance

/-- A well-formed record of 102 bytes: magic 218, state 0, capacity 100
written with ninety leading zeros, minutes 0. -/
def longRecord : List Char :=
  "218|0|".toList ++ (List.replicate 90 '0' ++ "100|0|".toList)

/-- The number of tenths that `%0.1f` prints for `ftime`: the `float` quotient
times ten, rounded to the nearest integer, ties to even. -/
def hours_tenths (time : Int) : Nat :=
  rne ((ftime_of time).num * 10) (ftime_of time).den

/-! # Theorems -/

set_option maxRecDepth 8000

/-! ## Synthetic source -/

theorem test_level_period (n : Nat) : test_level (n + 41) = test_level n := by
  unfold test_level
  rw [Function.iterate_add_apply]
  have h41 : (fun l => (charge_level_test l).1)^[41] 0 = 0 := by decide
  rw [h41]

theorem test_level_mod (n : Nat) : test_level n = test_level (n % 41) := by
  induction n using Nat.strong_induction_on with
  | _ n ih =>
    by_cases h : n < 41
    · rw [Nat.mod_eq_of_lt h]
    · have hn : n = (n - 41) + 41 := by omega
      rw [hn, test_level_period, Nat.add_mod_right]
      exact ih (n - 41) (by omega)

/-- C1: the synthetic (TEST_MODE) source, started at level 0, returns the
capacities 5, 10, ..., 100, then 100, 95, ..., 5, 0 in its first 41 queries and
repeats that cycle for ever; in every query the status is ExternalPower exactly
when the updated level is 100, Discharging exactly when it is negative and
Charging otherwise, and minutesRemaining is set to 30. -/
theorem synthetic_source_cycle :
    (test_queries 41).map Reading.capacity =
      [5, 10, 15, 20, 25, 30, 35, 40, 45, 50, 55, 60, 65, 70, 75, 80, 85, 90, 95, 100,
       100, 95, 90, 85, 80, 75, 70, 65, 60, 55, 50, 45, 40, 35, 30, 25, 20, 15, 10, 5, 0] ∧
    (∀ n, test_level (n + 41) = test_level n ∧ test_query (n + 41) = test_query n) ∧
    (∀ n, test_query n = test_query (n % 41)) ∧
    (∀ level : Int,
      ((charge_level_test level).2.status = STAT_EXT_POWER ↔ (charge_level_test level).1 = 100) ∧
      ((charge_level_test level).2.status = STAT_DISCHARGING ↔ (charge_level_test level).1 < 0) ∧
      ((charge_level_test level).2.status = STAT_CHARGING ↔
        (0 ≤ (charge_level_test level).1 ∧ (charge_level_test level).1 ≠ 100)) ∧
      (charge_level_test level).2.tim = 30) ∧
    (∀ n, (test_query n).status = STAT_CHARGING →
      test_level n < test_level (n + 1) ∧ test_level (n + 1) < 100) := by
  refine ⟨by decide, ?_, ?_, ?_, ?_⟩
  · intro n
    refine ⟨test_level_period n, ?_⟩
    unfold test_query
    rw [test_level_period]
  · intro n
    unfold test_query
    rw [test_level_mod]
  · intro level
    unfold charge_level_test
    simp only [STAT_EXT_POWER, STAT_DISCHARGING, STAT_CHARGING]
    split_ifs <;> simp <;> omega
  · intro n
    have hs : test_level (n + 1) = (charge_level_test (test_level n)).1 := by
      unfold test_level
      rw [Function.iterate_succ_apply']
    have hr : -100 ≤ test_level n ∧ test_level n ≤ 100 ∧ test_level n % 5 = 0 := by
      rw [test_level_mod]
      have hall : ∀ k, k < 41 →
          -100 ≤ test_level k ∧ test_level k ≤ 100 ∧ test_level k % 5 = 0 := by decide
      exact hall _ (Nat.mod_lt _ (by norm_num))
    rw [hs]
    unfold test_query
    generalize test_level n = l at hr ⊢
    unfold charge_level_test
    simp only [STAT_CHARGING, STAT_DISCHARGING, STAT_EXT_POWER]
    split_ifs <;> simp <;> omega

/-! ## Decimal digits: printing and scanning agree -/

theorem digit_char_facts : ∀ d, d < 10 →
    isdigit (Char.ofNat (48 + d)) = true ∧ digitVal (Char.ofNat (48 + d)) = d ∧
    isspace (Char.ofNat (48 + d)) = false ∧ Char.ofNat (48 + d) ≠ NUL ∧
    Char.ofNat (48 + d) ≠ '-' ∧ Char.ofNat (48 + d) ≠ '+' := by
  decide

theorem natDigits_ne_nil (f n : Nat) : natDigits (f + 1) n ≠ [] := by
  unfold natDigits
  split_ifs <;> simp

theorem natDigits_all_digit (f n : Nat) :
    ∀ c ∈ natDigits f n, isdigit c = true ∧ c ≠ NUL := by
  induction f generalizing n with
  | zero => intro c hc; simp [natDigits] at hc
  | succ f ih =>
    intro c hc
    unfold natDigits at hc
    split_ifs at hc with h
    · simp only [List.mem_singleton] at hc
      subst hc
      exact ⟨(digit_char_facts n h).1, (digit_char_facts n h).2.2.2.1⟩
    · rcases List.mem_append.mp hc with hc | hc
      · exact ih _ c hc
      · simp only [List.mem_singleton] at hc
        subst hc
        have hd := digit_char_facts (n % 10) (Nat.mod_lt _ (by norm_num))
        exact ⟨hd.1, hd.2.2.2.1⟩

theorem scanDigits_append (ds rest : List Char) (acc : Nat)
    (hds : ∀ c ∈ ds, isdigit c = true) :
    scanDigits acc (ds ++ rest) =
      scanDigits (ds.foldl (fun a c => a * 10 + digitVal c) acc) rest := by
  induction ds generalizing acc with
  | nil => rfl
  | cons d ds ih =>
    have hd : isdigit d = true := hds d (List.mem_cons_self _ _)
    simp only [List.cons_append, scanDigits, hd, if_true, List.foldl_cons]
    exact ih _ (fun c hc => hds c (List.mem_cons_of_mem _ hc))

theorem natDigits_value (f n : Nat) (hf : n < f) :
    (natDigits f n).foldl (fun a c => a * 10 + digitVal c) 0 = n := by
  induction f generalizing n with
  | zero => omega
  | succ f ih =>
    unfold natDigits
    split_ifs with h
    · simp [(digit_char_facts n h).2.1]
    · rw [List.foldl_append, ih (n / 10) (by omega)]
      simp only [List.foldl_cons, List.foldl_nil]
      rw [(digit_char_facts (n % 10) (Nat.mod_lt _ (by norm_num))).2.1]
      omega

theorem natDigits_length_le (f n k : Nat) (hk : 1 ≤ k) (hn : n < 10 ^ k) :
    (natDigits f n).length ≤ k := by
  induction f generalizing n k with
  | zero => simp [natDigits]
  | succ f ih =>
    unfold natDigits
    split_ifs with h
    · simpa using hk
    · obtain ⟨j, rfl⟩ : ∃ j, k = j + 1 := ⟨k - 1, by omega⟩
      have hj : 1 ≤ j := by
        rcases Nat.eq_zero_or_pos j with h0 | h0
        · subst h0; simp at hn; omega
        · exact h0
      have : n / 10 < 10 ^ j := by
        rw [pow_succ] at hn
        omega
      have := ih (n / 10) j hj this
      simp only [List.length_append, List.length_singleton]
      omega

theorem natDigits_head (f n : Nat) :
    ∃ d ds, natDigits (f + 1) n = d :: ds ∧ isdigit d = true ∧ isspace d = false ∧
      d ≠ '-' ∧ d ≠ '+' := by
  induction f generalizing n with
  | zero =>
    unfold natDigits
    split_ifs with h
    · have hd := digit_char_facts n h
      exact ⟨_, [], rfl, hd.1, hd.2.2.1, hd.2.2.2.2.1, hd.2.2.2.2.2⟩
    · have hd := digit_char_facts (n % 10) (Nat.mod_lt _ (by norm_num))
      exact ⟨_, [], by simp [natDigits], hd.1, hd.2.2.1, hd.2.2.2.2.1, hd.2.2.2.2.2⟩
  | succ f ih =>
    rw [natDigits]
    split_ifs with h
    · have hd := digit_char_facts n h
      exact ⟨_, [], rfl, hd.1, hd.2.2.1, hd.2.2.2.2.1, hd.2.2.2.2.2⟩
    · obtain ⟨d, ds, he, hd⟩ := ih (n / 10)
      exact ⟨d, ds ++ [Char.ofNat (48 + n % 10)], by rw [he]; rfl, hd⟩

/-- Scanning what `%d` printed gives the value back, when the next character
is a `|`. -/
theorem scan_d_fmt_d (v : Int) (rest : List Char) (hv : isInt32 v) :
    scan_d (fmt_d v ++ '|' :: rest) = Conv.ok v ('|' :: rest) := by
  obtain ⟨d, ds, he, hdig, hsp, hm, hp⟩ := natDigits_head v.natAbs v.natAbs
  have hscan : scanDigits 0 (natDigits (v.natAbs + 1) v.natAbs ++ '|' :: rest)
      = (v.natAbs, '|' :: rest) := by
    rw [scanDigits_append _ _ _ (fun c hc => (natDigits_all_digit _ _ c hc).1),
      natDigits_value _ _ (Nat.lt_succ_self _)]
    simp [scanDigits, isdigit]
  unfold isInt32 at hv
  unfold fmt_d
  split_ifs with hneg
  · have hsk : skipSpace ('-' :: (natDigits (v.natAbs + 1) v.natAbs ++ '|' :: rest))
        = '-' :: (natDigits (v.natAbs + 1) v.natAbs ++ '|' :: rest) := by
      simp [skipSpace, isspace]
    unfold scan_d
    simp only [List.cons_append, hsk]
    simp only [true_or, if_true, decide_True]
    rw [hscan]
    rw [he]
    simp only [List.cons_append, hdig, if_true]
    congr 1
    unfold sat32
    split_ifs <;> omega
  · have hsk : skipSpace (natDigits (v.natAbs + 1) v.natAbs ++ '|' :: rest)
        = natDigits (v.natAbs + 1) v.natAbs ++ '|' :: rest := by
      rw [he]
      simp [skipSpace, hsp]
    unfold scan_d
    rw [hsk]
    rw [he] at hscan ⊢
    simp only [List.cons_append] at hscan ⊢
    simp only [hm, hp, or_self, if_false, hdig, if_true, decide_False, hscan]
    simp only [Bool.false_eq_true, if_false]
    congr 1
    unfold sat32
    split_ifs <;> omega

theorem fmt_d_length (v : Int) (hv : isInt32 v) : (fmt_d v).length ≤ 11 := by
  unfold isInt32 at hv
  have h := natDigits_length_le (v.natAbs + 1) v.natAbs 10 (by norm_num) (by omega)
  unfold fmt_d
  split_ifs <;> simp <;> omega

theorem fmt_d_no_NUL (v : Int) : ∀ c ∈ fmt_d v, c ≠ NUL := by
  intro c hc
  unfold fmt_d at hc
  split_ifs at hc
  · rcases List.mem_cons.mp hc with rfl | hc
    · decide
    · exact (natDigits_all_digit _ _ c hc).2
  · exact (natDigits_all_digit _ _ c hc).2

theorem cstr_eq_self (s : List Char) (h : ∀ c ∈ s, c ≠ NUL) : cstr s = s := by
  induction s with
  | nil => rfl
  | cons c cs ih =>
    have hc : c ≠ NUL := h c (List.mem_cons_self _ _)
    simp only [cstr, hc, if_false]
    rw [ih (fun c hc => h c (List.mem_cons_of_mem _ hc))]

theorem sscanf4_render (m s c t : Int)
    (hm : isInt32 m) (hs : isInt32 s) (hc : isInt32 c) (ht : isInt32 t) :
    sscanf4 (render_record m s c t) = (4, [m, s, c, t]) := by
  have hf : scan_fields 4 (render_record m s c t) = [m, s, c, t] := by
    unfold render_record
    simp only [scan_fields]
    rw [scan_d_fmt_d m _ hm]
    simp only
    rw [scan_d_fmt_d s _ hs]
    simp only
    rw [scan_d_fmt_d c _ hc]
    simp only
    rw [show fmt_d t ++ ['|'] = fmt_d t ++ '|' :: [] from rfl, scan_d_fmt_d t _ ht]
    simp
  unfold sscanf4
  rw [hf]
  rfl

theorem render_record_cstr (m s c t : Int) :
    cstr (render_record m s c t) = render_record m s c t := by
  apply cstr_eq_self
  intro x hx
  unfold render_record at hx
  simp only [List.mem_append, List.mem_cons, List.mem_singleton, List.not_mem_nil,
    or_false] at hx
  have hp : ('|' : Char) ≠ NUL := by decide
  rcases hx with h | rfl | h | rfl | h | rfl | h | rfl
  · exact fmt_d_no_NUL _ x h
  · exact hp
  · exact fmt_d_no_NUL _ x h
  · exact hp
  · exact fmt_d_no_NUL _ x h
  · exact hp
  · exact fmt_d_no_NUL _ x h
  · exact hp

theorem render_record_length (m s c t : Int)
    (hm : isInt32 m) (hs : isInt32 s) (hc : isInt32 c) (ht : isInt32 t) :
    0 < (render_record m s c t).length ∧ (render_record m s c t).length < 100 := by
  have h1 := fmt_d_length m hm
  have h2 := fmt_d_length s hs
  have h3 := fmt_d_length c hc
  have h4 := fmt_d_length t ht
  unfold render_record
  simp only [List.length_append, List.length_cons, List.length_nil]
  omega

/-! ## Device-manager query -/

/-- What `charge_level` makes of a message of 1..99 bytes on an open
device-manager socket, in terms of the outcome of `sscanf`. -/
theorem charge_level_dm (sys : BattSys) (pt : PtBattPlugin) (msg : List Char)
    (hav : pt.pt_batt_avail = true) (hreq : pt.requester = true)
    (hlen : 0 < msg.length ∧ msg.length < 100) :
    charge_level sys pt (some msg) =
      (match sscanf4 (cstr msg) with
       | (4, [res, state, capacity, time]) =>
         if res = 218 ∧ (state = 1 ∨ state = 0 ∨ state = 2) then
           { capacity := capacity,
             status := if capacity = 100 ∧ time = 0 then 2 else state,
             tim := time }
         else unknownReading
       | _ => unknownReading) := by
  unfold charge_level unknownReading
  simp only [hav, hreq, if_true, Bool.not_true, Bool.false_eq_true, if_false, Option.getD_some,
    STAT_CHARGING, STAT_DISCHARGING, STAT_EXT_POWER, STAT_UNKNOWN]
  have hl : (0 : Int) < (msg.length : Int) ∧ (msg.length : Int) < 100 := by omega
  simp only [hl, and_self, if_true]
  rcases hsc : sscanf4 (cstr msg) with ⟨n, vals⟩
  simp only
  by_cases hn : n = 4
  · subst hn
    simp only [if_true]
    match vals with
    | [] => simp
    | [_] => simp
    | [_, _] => simp
    | [_, _, _] => simp
    | _ :: _ :: _ :: _ :: _ :: _ => simp
    | [res, state, capacity, time] =>
      simp only
      by_cases hv : res = 218 ∧ (state = 1 ∨ state = 0 ∨ state = 2)
      · simp only [hv, if_true]
        have : (if capacity = 100 ∧ time = 0 then (2 : Int) else state) ≠ -1 := by
          split_ifs <;> omega
        simp [this]
      · simp [hv]
  · simp only [hn, if_false]
    simp only [ne_eq, not_true_eq_false, if_false]
    split
    · next h => exact absurd (congrArg Prod.fst h) hn
    · rfl

/-- A device-manager query either yields the unknown reading or passes on the
fields of an accepted record. -/
theorem charge_level_dm_cases (sys : BattSys) (pt : PtBattPlugin) (rx : Option (List Char))
    (hav : pt.pt_batt_avail = true) :
    charge_level sys pt rx = unknownReading ∨
    ∃ msg s c t, rx = some msg ∧ pt.requester = true ∧
      (0 < msg.length ∧ msg.length < 100) ∧
      sscanf4 (cstr msg) = (4, [218, s, c, t]) ∧ (s = 1 ∨ s = 0 ∨ s = 2) ∧
      charge_level sys pt rx =
        { capacity := c, status := if c = 100 ∧ t = 0 then 2 else s, tim := t } := by
  by_cases hreq : pt.requester = true
  swap
  · left
    unfold charge_level unknownReading
    simp [hav, hreq]
  match rx with
  | none =>
    left
    unfold charge_level unknownReading
    simp [hav, hreq, STAT_UNKNOWN]
  | some msg =>
    by_cases hlen : 0 < msg.length ∧ msg.length < 100
    swap
    · left
      unfold charge_level unknownReading
      have hl : ¬ ((0 : Int) < (msg.length : Int) ∧ (msg.length : Int) < 100) := by omega
      simp only [hav, hreq, if_true, Bool.not_true, Bool.false_eq_true, if_false, hl,
        STAT_UNKNOWN]
      simp
    rw [charge_level_dm sys pt msg hav hreq hlen]
    rcases hsc : sscanf4 (cstr msg) with ⟨n, vals⟩
    split
    · rename_i res state capacity time h
      obtain ⟨h1, h2⟩ := Prod.mk.inj h
      subst h1 h2
      by_cases hv : res = 218 ∧ (state = 1 ∨ state = 0 ∨ state = 2)
      · right
        rw [if_pos hv]
        obtain ⟨rfl, hs⟩ := hv
        exact ⟨msg, _, _, _, rfl, hreq, hlen, hsc, hs, rfl⟩
      · left
        rw [if_neg hv]
    · left; rfl

theorem update_icon_unknown (sys : BattSys) (pt : PtBattPlugin) (rx : Option (List Char))
    (h : (charge_level sys pt rx).status = STAT_UNKNOWN) : update_icon sys pt rx = [] := by
  unfold update_icon
  simp [h]

/-- C2 (amended): on a device-manager query, every received record from which
`sscanf` converts fewer than four integer fields, or whose first field (magic)
is not 218, yields status Unknown, capacity -1 and minutes 0, and `update_icon`
on that record makes no `draw_icon` call and no tooltip call. -/
theorem charge_level_rejects_short_or_bad_magic (sys : BattSys) (pt : PtBattPlugin)
    (msg : List Char) (hav : pt.pt_batt_avail = true)
    (hbad : (sscanf4 (cstr msg)).1 ≠ 4 ∨ (sscanf4 (cstr msg)).2.head? ≠ some 218) :
    charge_level sys pt (some msg) = { capacity := -1, status := STAT_UNKNOWN, tim := 0 } ∧
    update_icon sys pt (some msg) = [] := by
  have hu : charge_level sys pt (some msg) = unknownReading := by
    rcases charge_level_dm_cases sys pt (some msg) hav with h | ⟨m, s, c, t, hm, _, _, hsc, _, _⟩
    · exact h
    · obtain rfl := Option.some.inj hm
      rw [hsc] at hbad
      simp at hbad
  refine ⟨hu, update_icon_unknown sys pt _ ?_⟩
  rw [hu]
  rfl

theorem charge_level_rejects_short_or_bad_magic_witness :
    ((sscanf4 (cstr "218|1|50|".toList)).1 ≠ 4 ∨
      (sscanf4 (cstr "218|1|50|".toList)).2.head? ≠ some 218) ∧
    charge_level idleBattSys dmPlugin (some "218|1|50|".toList) =
      { capacity := -1, status := STAT_UNKNOWN, tim := 0 } ∧
    update_icon idleBattSys dmPlugin (some "218|1|50|".toList) = [] :=
  ⟨by decide,
   charge_level_rejects_short_or_bad_magic idleBattSys dmPlugin "218|1|50|".toList rfl
     (by decide)⟩

/-- C2 as stated fails: the record `218|1|50|30|7|` has five fields, so it does
not have the form `<int>|<int>|<int>|<int>|`, yet the query accepts it
(Charging, 50 %, 30 minutes) and `update_icon` draws it. -/
theorem five_field_record_is_accepted :
    has_wire_form "218|1|50|30|7|".toList = false ∧
    charge_level idleBattSys dmPlugin (some "218|1|50|30|7|".toList) =
      { capacity := 50, status := STAT_CHARGING, tim := 30 } ∧
    update_icon idleBattSys dmPlugin (some "218|1|50|30|7|".toList) =
      [UICall.draw_icon 50 0.95 0.64 0 1,
       UICall.set_tooltip_text "Charging : 50%\nTime remaining : 30 minutes".toList] :=
  ⟨by decide, by decide, by rfl⟩

/-- The reading that `charge_level` returns for a message of 1..99 bytes that
`sscanf` reads as the four fields of a valid record. -/
theorem charge_level_scanned (sys : BattSys) (pt : PtBattPlugin) (msg : List Char)
    (s c t : Int) (hav : pt.pt_batt_avail = true) (hreq : pt.requester = true)
    (hs : s = STAT_DISCHARGING ∨ s = STAT_CHARGING ∨ s = STAT_EXT_POWER)
    (hlen : 0 < msg.length ∧ msg.length < 100)
    (hsc : sscanf4 (cstr msg) = (4, [218, s, c, t])) :
    charge_level sys pt (some msg) =
      if c = 100 ∧ t = 0 then { capacity := 100, status := STAT_EXT_POWER, tim := 0 }
      else { capacity := c, status := s, tim := t } := by
  rw [charge_level_dm sys pt _ hav hreq hlen, hsc]
  simp only [STAT_DISCHARGING, STAT_CHARGING, STAT_EXT_POWER] at hs ⊢
  have hv : (218 : Int) = 218 ∧ (s = 1 ∨ s = 0 ∨ s = 2) := ⟨rfl, by omega⟩
  simp only [hv, if_true]
  by_cases h : c = 100 ∧ t = 0
  · obtain ⟨rfl, rfl⟩ := h
    simp
  · simp [h]

theorem isInt32_of_state (s : Int)
    (hs : s = STAT_DISCHARGING ∨ s = STAT_CHARGING ∨ s = STAT_EXT_POWER) : isInt32 s := by
  simp only [STAT_DISCHARGING, STAT_CHARGING, STAT_EXT_POWER] at hs
  unfold isInt32
  omega

/-- A rendered valid record is a message of 1..99 bytes without NUL that
`sscanf` reads back as its four fields. -/
theorem render_record_scanned (s c t : Int)
    (hs : s = STAT_DISCHARGING ∨ s = STAT_CHARGING ∨ s = STAT_EXT_POWER)
    (hc : isInt32 c) (ht : isInt32 t) :
    (0 < (render_record 218 s c t).length ∧ (render_record 218 s c t).length < 100) ∧
    sscanf4 (cstr (render_record 218 s c t)) = (4, [218, s, c, t]) := by
  have h218 : isInt32 218 := by unfold isInt32; omega
  have hs' := isInt32_of_state s hs
  refine ⟨render_record_length 218 s c t h218 hs' hc ht, ?_⟩
  rw [render_record_cstr, sscanf4_render 218 s c t h218 hs' hc ht]

/-- A message that `sscanf` reads as four fields is not empty. -/
theorem scanned_length_pos (msg : List Char) (vals : List Int)
    (hsc : sscanf4 (cstr msg) = (4, vals)) : 0 < msg.length := by
  cases msg with
  | nil =>
    have h0 : sscanf4 (cstr []) = (EOF, []) := by decide
    rw [h0] at hsc
    have h1 : (EOF : Int) = 4 := congrArg Prod.fst hsc
    exact absurd h1 (by decide)
  | cons c cs => simp

/-- A message of 100 bytes or more is ignored by the device-manager query. -/
theorem charge_level_long (sys : BattSys) (pt : PtBattPlugin) (msg : List Char)
    (hav : pt.pt_batt_avail = true) (hlong : 100 ≤ msg.length) :
    charge_level sys pt (some msg) = { capacity := -1, status := STAT_UNKNOWN, tim := 0 } := by
  rcases charge_level_dm_cases sys pt (some msg) hav with h | ⟨m, _, _, _, hm, _, hlen, _, _, _⟩
  · exact h
  · obtain rfl := Option.some.inj hm
    omega

/-- C3 (amended): for every valid record (magic 218, state 0, 1 or 2) that
arrives as a message of fewer than 100 bytes, the device-manager query returns
ExternalPower with capacity 100 and minutes 0 when the record has capacity 100
and minutes 0, whatever its raw state, and otherwise the raw state, the
record's capacity and the record's minutes; a message of 100 bytes or more is
ignored (Unknown, -1, 0); every record printed as `%d|%d|%d|%d|` from 32-bit
values is shorter than 100 bytes. -/
theorem charge_level_valid_record (sys : BattSys) (pt : PtBattPlugin) (msg : List Char)
    (s c t : Int) (hav : pt.pt_batt_avail = true) (hreq : pt.requester = true)
    (hs : s = STAT_DISCHARGING ∨ s = STAT_CHARGING ∨ s = STAT_EXT_POWER)
    (hsc : sscanf4 (cstr msg) = (4, [218, s, c, t])) :
    (msg.length < 100 →
      charge_level sys pt (some msg) =
        (if c = 100 ∧ t = 0 then { capacity := 100, status := STAT_EXT_POWER, tim := 0 }
         else { capacity := c, status := s, tim := t })) ∧
    (100 ≤ msg.length →
      charge_level sys pt (some msg) = { capacity := -1, status := STAT_UNKNOWN, tim := 0 }) ∧
    (isInt32 c → isInt32 t →
      (render_record 218 s c t).length < 100 ∧
      sscanf4 (cstr (render_record 218 s c t)) = (4, [218, s, c, t]) ∧
      charge_level sys pt (some (render_record 218 s c t)) =
        (if c = 100 ∧ t = 0 then { capacity := 100, status := STAT_EXT_POWER, tim := 0 }
         else { capacity := c, status := s, tim := t })) := by
  refine ⟨?_, ?_, ?_⟩
  · intro hlt
    exact charge_level_scanned sys pt msg s c t hav hreq hs
      ⟨scanned_length_pos msg _ hsc, hlt⟩ hsc
  · intro hlong
    exact charge_level_long sys pt msg hav hlong
  · intro hc ht
    obtain ⟨hlen, hr⟩ := render_record_scanned s c t hs hc ht
    exact ⟨hlen.2, hr, charge_level_scanned sys pt _ s c t hav hreq hs hlen hr⟩

theorem charge_level_valid_record_witness :
    (STAT_DISCHARGING = STAT_DISCHARGING ∨ STAT_DISCHARGING = STAT_CHARGING ∨
      STAT_DISCHARGING = STAT_EXT_POWER) ∧
    sscanf4 (cstr "218|0|100|0|".toList) = (4, [218, STAT_DISCHARGING, 100, 0]) ∧
    "218|0|100|0|".toList.length < 100 ∧
    charge_level idleBattSys dmPlugin (some "218|0|100|0|".toList) =
      { capacity := 100, status := STAT_EXT_POWER, tim := 0 } :=
  ⟨Or.inl rfl, by decide, by decide,
   ((charge_level_valid_record idleBattSys dmPlugin "218|0|100|0|".toList STAT_DISCHARGING
      100 0 rfl rfl (Or.inl rfl) (by decide)).1 (by decide)).trans (by decide)⟩

/-- C3 as stated fails: the 102-byte record `218|0|0...0100|0|` is valid (magic
218, state 0, capacity 100, minutes 0) but the query ignores it, because only
messages of fewer than 100 bytes are parsed. -/
theorem long_valid_record_is_ignored :
    longRecord.length = 102 ∧ has_wire_form longRecord = true ∧
    sscanf4 (cstr longRecord) = (4, [218, 0, 100, 0]) ∧
    charge_level idleBattSys dmPlugin (some longRecord) =
      { capacity := -1, status := STAT_UNKNOWN, tim := 0 } :=
  ⟨by decide, by decide, by decide, by decide⟩

/-! ## Mapping of a reading to the display -/

theorem hours_tenths_close_0 : ∀ t : Nat, t < 480 →
    6 * hours_tenths (t : Int) ≤ t + 3 ∧ t ≤ 6 * hours_tenths (t : Int) + 3 := by
  decide

theorem hours_tenths_close_1 : ∀ t : Nat, t < 480 →
    6 * hours_tenths ((t + 480 : Nat) : Int) ≤ (t + 480) + 3 ∧
    (t + 480) ≤ 6 * hours_tenths ((t + 480 : Nat) : Int) + 3 := by
  decide

theorem hours_tenths_close_2 : ∀ t : Nat, t < 480 →
    6 * hours_tenths ((t + 960 : Nat) : Int) ≤ (t + 960) + 3 ∧
    (t + 960) ≤ 6 * hours_tenths ((t + 960 : Nat) : Int) + 3 := by
  decide

/-- Below 24 hours the number printed by `%0.1f` is within 0.05 of
minutes / 60: the printed tenths `n` satisfy `|6 n - minutes| <= 3`. -/
theorem hours_tenths_close (t : Nat) (ht : t < 1440) :
    6 * hours_tenths (t : Int) ≤ t + 3 ∧ t ≤ 6 * hours_tenths (t : Int) + 3 := by
  by_cases h0 : t < 480
  · exact hours_tenths_close_0 t h0
  · by_cases h1 : t < 960
    · have h := hours_tenths_close_1 (t - 480) (by omega)
      rwa [show t - 480 + 480 = t by omega] at h
    · have h := hours_tenths_close_2 (t - 960) (by omega)
      rwa [show t - 960 + 960 = t by omega] at h

theorem fmt_0_1f_ftime_of (t : Nat) :
    fmt_0_1f (ftime_of (t : Int)) =
      natDigits (hours_tenths (t : Int) / 10 + 1) (hours_tenths (t : Int) / 10) ++
        '.' :: natDigits 1 (hours_tenths (t : Int) % 10) := by
  have hneg : (ftime_of (t : Int)).neg = false := by
    unfold ftime_of
    simp
  unfold fmt_0_1f hours_tenths
  simp [hneg]

/-- C4: for a Reading with status Charging or Discharging, the tooltip set by
`update_icon` is the status line alone when minutes <= 0, the status line
followed by the minutes printed as an integer and " minutes" when
0 < minutes < 90, and the status line followed by minutes/60 printed with one
decimal (the `float` quotient under `%0.1f`) and " hours" when minutes >= 90;
45 prints as "45", 125 minutes as "2.1" and 90 minutes as "1.5", and for every
minutes from 90 to 1439 the hours are printed as n/10 with one decimal where
n tenths are within 0.05 of minutes/60. -/
theorem update_icon_time_clause (sys : BattSys) (pt : PtBattPlugin) (rx : Option (List Char))
    (hst : (charge_level sys pt rx).status = STAT_CHARGING ∨
      (charge_level sys pt rx).status = STAT_DISCHARGING) :
    tooltips (update_icon sys pt rx) =
      [(if (charge_level sys pt rx).status = STAT_CHARGING then "Charging : ".toList
          else "Discharging : ".toList) ++
        fmt_d (charge_level sys pt rx).capacity ++
        (if (charge_level sys pt rx).tim ≤ 0 then "%".toList
         else if (charge_level sys pt rx).tim < 90 then
           "%\nTime remaining : ".toList ++ fmt_d (charge_level sys pt rx).tim ++
             " minutes".toList
         else
           "%\nTime remaining : ".toList ++
             fmt_0_1f (ftime_of (charge_level sys pt rx).tim) ++ " hours".toList)] ∧
    fmt_d 45 = "45".toList ∧
    fmt_0_1f (ftime_of 125) = "2.1".toList ∧
    fmt_0_1f (ftime_of 90) = "1.5".toList ∧
    (∀ m : Nat, 90 ≤ m → m < 1440 →
      fmt_0_1f (ftime_of (m : Int)) =
        natDigits (hours_tenths (m : Int) / 10 + 1) (hours_tenths (m : Int) / 10) ++
          '.' :: natDigits 1 (hours_tenths (m : Int) % 10) ∧
      6 * hours_tenths (m : Int) ≤ m + 3 ∧ m ≤ 6 * hours_tenths (m : Int) + 3) := by
  refine ⟨?_, by decide, by decide, by decide,
    fun m _ hm => ⟨fmt_0_1f_ftime_of m, hours_tenths_close m hm⟩⟩
  unfold update_icon
  generalize charge_level sys pt rx = rd at hst ⊢
  rcases hst with h | h
  · simp only [h, STAT_CHARGING, STAT_UNKNOWN, STAT_DISCHARGING, STAT_EXT_POWER]
    simp only [show ((1 : Int) = -1) = False from by simp, if_false, if_true]
    split_ifs <;> simp [tooltips]
  · simp only [h, STAT_CHARGING, STAT_UNKNOWN, STAT_DISCHARGING, STAT_EXT_POWER]
    simp only [show ((0 : Int) = -1) = False from by simp, show ((0 : Int) = 1) = False from by simp,
      show ((0 : Int) = 2) = False from by simp, if_false]
    split_ifs <;> simp [tooltips]

theorem update_icon_time_clause_witness :
    ((charge_level idleBattSys dmPlugin (some "218|1|80|45|".toList)).status = STAT_CHARGING ∨
      (charge_level idleBattSys dmPlugin (some "218|1|80|45|".toList)).status
        = STAT_DISCHARGING) ∧
    tooltips (update_icon idleBattSys dmPlugin (some "218|1|80|45|".toList)) =
      ["Charging : 80%\nTime remaining : 45 minutes".toList] :=
  ⟨by decide,
   (update_icon_time_clause idleBattSys dmPlugin (some "218|1|80|45|".toList)
      (by decide)).1.trans (by decide)⟩

theorem draw_icon_w_ge (ic : Int) : 36 ≤ draw_icon_w ic := by
  unfold draw_icon_w
  split_ifs <;> omega

/-- C5: with trackWidth = w - 12, `draw_icon` fills the whole track for every
capacity >= 97 and floor(trackWidth * capacity / 97) for 0 <= capacity < 97;
capacity 0 gives 0, and capacity 50 on a track of width 97 gives 50.  The
product trackWidth * 97 is assumed to fit an `int`. -/
theorem draw_icon_fill_width (ic lev : Int)
    (hic : (draw_icon_w ic - 12) * 97 ≤ 2147483647) (hlev : 0 ≤ lev) :
    draw_icon_f ic lev =
      (if 97 ≤ lev then draw_icon_w ic - 12 else (draw_icon_w ic - 12) * lev / 97) ∧
    draw_icon_f ic 97 = draw_icon_w ic - 12 ∧
    draw_icon_f ic 0 = 0 ∧
    (draw_icon_w 109 - 12 = 97 ∧ draw_icon_f 109 50 = 50) := by
  have hw := draw_icon_w_ge ic
  have key : ∀ l : Int, 0 ≤ l → l ≤ 97 →
      draw_icon_f ic l = (draw_icon_w ic - 12) * l / 97 := by
    intro l h0 h97
    unfold draw_icon_f
    have hprod0 : 0 ≤ (draw_icon_w ic - 12) * l := Int.mul_nonneg (by omega) h0
    have hprod : (draw_icon_w ic - 12) * l ≤ (draw_icon_w ic - 12) * 97 :=
      Int.mul_le_mul_of_nonneg_left h97 (by omega)
    have hwrap : wrap32 ((draw_icon_w ic - 12) * l) = (draw_icon_w ic - 12) * l := by
      unfold wrap32
      omega
    have hq : (draw_icon_w ic - 12) * l / 97 ≤ draw_icon_w ic - 12 := by
      omega
    simp only [hwrap, Int.tdiv_eq_ediv hprod0 (by norm_num : (0 : Int) ≤ 97)]
    split_ifs <;> omega
  refine ⟨?_, ?_, ?_, by decide, by decide⟩
  · split_ifs with h
    · rcases eq_or_lt_of_le h with h97 | h97
      · rw [← h97, key 97 (by norm_num) le_rfl]
        omega
      · simp only [draw_icon_f]
        split_ifs <;> omega
    · exact key lev hlev (by omega)
  · rw [key 97 (by norm_num) le_rfl]
    omega
  · rw [key 0 le_rfl (by norm_num)]
    simp

theorem draw_icon_fill_width_witness :
    (draw_icon_w 109 - 12) * 97 ≤ 2147483647 ∧ (0 : Int) ≤ 50 ∧
    draw_icon_f 109 50 = 97 * 50 / 97 :=
  ⟨by decide, by decide, (draw_icon_fill_width 109 50 (by decide) (by decide)).1⟩

/-- Closed form of the fill width when trackWidth * 97 fits an `int`. -/
theorem draw_icon_f_closed (ic lev : Int)
    (hic : (draw_icon_w ic - 12) * 97 ≤ 2147483647) :
    draw_icon_f ic lev =
      if lev < 0 then 0
      else if lev > 97 then draw_icon_w ic - 12
      else (draw_icon_w ic - 12) * lev / 97 := by
  have hw := draw_icon_w_ge ic
  simp only [draw_icon_f]
  by_cases h0 : lev < 0
  · simp only [h0, if_true]
  by_cases h97 : lev > 97
  · simp only [h0, h97, if_false, if_true]
  simp only [h0, h97, if_false]
  have hprod0 : 0 ≤ (draw_icon_w ic - 12) * lev := Int.mul_nonneg (by omega) (by omega)
  have hprod : (draw_icon_w ic - 12) * lev ≤ (draw_icon_w ic - 12) * 97 :=
    Int.mul_le_mul_of_nonneg_left (by omega) (by omega)
  have hwrap : wrap32 ((draw_icon_w ic - 12) * lev) = (draw_icon_w ic - 12) * lev := by
    unfold wrap32
    omega
  have hq : (draw_icon_w ic - 12) * lev / 97 ≤ draw_icon_w ic - 12 := by
    omega
  rw [hwrap, Int.tdiv_eq_ediv hprod0 (by norm_num : (0 : Int) ≤ 97)]
  split_ifs <;> omega

/-- C11: for every icon width w >= 36 (w is the panel icon size raised to at
least 36) whose track width times 97 fits an `int`, and every integer level,
negative levels and levels above 100 included, the fill width f computed by
`draw_icon` satisfies 0 <= f <= w - 12, is 0 for every level <= 0, and does not
decrease when the level grows. -/
theorem draw_icon_fill_inside_track_monotone (ic lev lev1 lev2 : Int)
    (hic : (draw_icon_w ic - 12) * 97 ≤ 2147483647) :
    36 ≤ draw_icon_w ic ∧ (36 ≤ ic → draw_icon_w ic = ic) ∧
    0 ≤ draw_icon_f ic lev ∧ draw_icon_f ic lev ≤ draw_icon_w ic - 12 ∧
    (lev ≤ 0 → draw_icon_f ic lev = 0) ∧
    (lev1 ≤ lev2 → draw_icon_f ic lev1 ≤ draw_icon_f ic lev2) := by
  have hw := draw_icon_w_ge ic
  have hW : 0 ≤ draw_icon_w ic - 12 := by omega
  have hnn : ∀ l : Int, 0 ≤ l → 0 ≤ (draw_icon_w ic - 12) * l / 97 := fun l hl =>
    Int.ediv_nonneg (Int.mul_nonneg hW hl) (by norm_num)
  have hle : ∀ l : Int, l ≤ 97 → (draw_icon_w ic - 12) * l / 97 ≤ draw_icon_w ic - 12 := by
    intro l hl
    have hprod : (draw_icon_w ic - 12) * l ≤ (draw_icon_w ic - 12) * 97 :=
      Int.mul_le_mul_of_nonneg_left hl hW
    omega
  refine ⟨hw, ?_, ?_, ?_, ?_, ?_⟩
  · intro h
    unfold draw_icon_w
    split_ifs <;> omega
  · rw [draw_icon_f_closed ic lev hic]
    split_ifs with h0 h97
    · exact le_rfl
    · exact hW
    · exact hnn lev (by omega)
  · rw [draw_icon_f_closed ic lev hic]
    split_ifs with h0 h97
    · exact hW
    · exact le_rfl
    · exact hle lev (by omega)
  · intro h
    rw [draw_icon_f_closed ic lev hic]
    split_ifs with h0 h97
    · rfl
    · omega
    · have : lev = 0 := by omega
      subst this
      simp
  · intro h
    rw [draw_icon_f_closed ic lev1 hic, draw_icon_f_closed ic lev2 hic]
    split_ifs with a1 a2 a3 a4 a5 a6 a7
    all_goals first
      | exact le_rfl
      | exact hW
      | (exfalso; omega)
      | exact hnn _ (by omega)
      | exact hle _ (by omega)
      | exact Int.ediv_le_ediv (by norm_num) (Int.mul_le_mul_of_nonneg_left h hW)

theorem draw_icon_fill_inside_track_monotone_witness :
    (draw_icon_w 48 - 12) * 97 ≤ 2147483647 ∧
    draw_icon_w 48 = 48 ∧
    draw_icon_f 48 (-7) = 0 ∧ draw_icon_f 48 30 = 11 ∧ draw_icon_f 48 120 = 36 ∧
    draw_icon_f 48 30 ≤ draw_icon_f 48 120 :=
  ⟨by decide,
   (draw_icon_fill_inside_track_monotone 48 (-7) 30 120 (by decide)).2.1 (by decide),
   (draw_icon_fill_inside_track_monotone 48 (-7) 30 120 (by decide)).2.2.2.2.1 (by decide),
   by decide, by decide,
   (draw_icon_fill_inside_track_monotone 48 (-7) 30 120 (by decide)).2.2.2.2.2 (by decide)⟩

theorem charge_level_status (sys : BattSys) (pt : PtBattPlugin) (rx : Option (List Char)) :
    (charge_level sys pt rx).status = STAT_UNKNOWN ∨
    (charge_level sys pt rx).status = STAT_DISCHARGING ∨
    (charge_level sys pt rx).status = STAT_CHARGING ∨
    (charge_level sys pt rx).status = STAT_EXT_POWER := by
  by_cases hav : pt.pt_batt_avail = true
  · rcases charge_level_dm_cases sys pt rx hav with h | ⟨m, s, c, t, _, _, _, _, hs, h⟩
    · left; rw [h]; rfl
    · rw [h]
      simp only [STAT_UNKNOWN, STAT_DISCHARGING, STAT_CHARGING, STAT_EXT_POWER]
      split_ifs
      · simp
      · rcases hs with rfl | rfl | rfl <;> simp
  · unfold charge_level
    simp only [hav, Bool.false_eq_true, if_false]
    cases pt.batt with
    | none => left; rfl
    | some b =>
      simp only [STAT_UNKNOWN, STAT_DISCHARGING, STAT_CHARGING, STAT_EXT_POWER]
      split_ifs <;> simp

/-- C6: for a Reading whose status is not Unknown, whatever its capacity and
minutes, `update_icon` draws the Reading's capacity in amber (0.95, 0.64, 0)
with the flash overlay (powered 1) when Charging, in green (0, 0.85, 0) with
the plug overlay (powered 2) and a tooltip without time clause when
ExternalPower, and without overlay (powered 0) when Discharging, in red
(1, 0, 0) if capacity <= 20 and in green (0, 0.85, 0) otherwise. -/
theorem update_icon_colour_overlay (sys : BattSys) (pt : PtBattPlugin)
    (rx : Option (List Char)) (hst : (charge_level sys pt rx).status ≠ STAT_UNKNOWN) :
    draws (update_icon sys pt rx) =
      [if (charge_level sys pt rx).status = STAT_CHARGING then
         ((charge_level sys pt rx).capacity, 0.95, 0.64, 0, 1)
       else if (charge_level sys pt rx).status = STAT_EXT_POWER then
         ((charge_level sys pt rx).capacity, 0, 0.85, 0, 2)
       else if (charge_level sys pt rx).capacity ≤ 20 then
         ((charge_level sys pt rx).capacity, 1, 0, 0, 0)
       else ((charge_level sys pt rx).capacity, 0, 0.85, 0, 0)] ∧
    ((charge_level sys pt rx).status = STAT_EXT_POWER →
      tooltips (update_icon sys pt rx) =
        ["Charged : ".toList ++ fmt_d (charge_level sys pt rx).capacity ++
          "%\nOn external power".toList]) ∧
    ((charge_level sys pt rx).status ≠ STAT_CHARGING →
      (charge_level sys pt rx).status ≠ STAT_EXT_POWER →
      (charge_level sys pt rx).status = STAT_DISCHARGING) := by
  have h4 := charge_level_status sys pt rx
  unfold update_icon
  generalize charge_level sys pt rx = rd at hst h4 ⊢
  refine ⟨?_, ?_, ?_⟩
  · simp only [hst, if_false]
    split_ifs <;> simp [draws]
  · intro h
    have h1 : ¬ rd.status = STAT_CHARGING := by
      rw [h]; simp [STAT_EXT_POWER, STAT_CHARGING]
    simp only [hst, if_false, h1, h, if_true]
    simp [tooltips]
  · intro h1 h2
    rcases h4 with h | h | h | h
    · exact absurd h hst
    · exact h
    · exact absurd h h1
    · exact absurd h h2

theorem update_icon_colour_overlay_witness :
    (charge_level idleBattSys dmPlugin (some "218|0|20|300|".toList)).status ≠ STAT_UNKNOWN ∧
    draws (update_icon idleBattSys dmPlugin (some "218|0|20|300|".toList)) =
      [(20, 1, 0, 0, 0)] ∧
    (charge_level idleBattSys dmPlugin (some "218|0|21|300|".toList)).status ≠ STAT_UNKNOWN ∧
    draws (update_icon idleBattSys dmPlugin (some "218|0|21|300|".toList)) =
      [(21, 0, 0.85, 0, 0)] :=
  ⟨by decide,
   (update_icon_colour_overlay idleBattSys dmPlugin (some "218|0|20|300|".toList)
      (by decide)).1.trans (by
        rw [show charge_level idleBattSys dmPlugin (some "218|0|20|300|".toList)
          = { capacity := 20, status := STAT_DISCHARGING, tim := 300 } from by decide]
        simp [STAT_DISCHARGING, STAT_CHARGING, STAT_EXT_POWER]),
   by decide,
   (update_icon_colour_overlay idleBattSys dmPlugin (some "218|0|21|300|".toList)
      (by decide)).1.trans (by
        rw [show charge_level idleBattSys dmPlugin (some "218|0|21|300|".toList)
          = { capacity := 21, status := STAT_DISCHARGING, tim := 300 } from by decide]
        simp [STAT_DISCHARGING, STAT_CHARGING, STAT_EXT_POWER])⟩

/-- C7 (amended): every Reading of the device-manager query has one of the four
statuses; it is either the unknown reading (Unknown, capacity -1, minutes 0),
which satisfies the data model, or it comes from an accepted record (a message
of 1..99 bytes with magic 218 and state 0, 1 or 2) whose capacity and minutes
fields it carries unchanged, with the record's state as status unless the
override to ExternalPower applies, and then it satisfies the data model
whenever those fields satisfy 0 <= capacity <= 100 and minutes >= 0. -/
theorem charge_level_reading_shape (sys : BattSys) (pt : PtBattPlugin)
    (rx : Option (List Char)) (hav : pt.pt_batt_avail = true) :
    (charge_level sys pt rx = { capacity := -1, status := STAT_UNKNOWN, tim := 0 } ∧
      data_model (charge_level sys pt rx)) ∨
    (∃ msg s, rx = some msg ∧ pt.requester = true ∧
      (0 < msg.length ∧ msg.length < 100) ∧
      (s = STAT_DISCHARGING ∨ s = STAT_CHARGING ∨ s = STAT_EXT_POWER) ∧
      sscanf4 (cstr msg) =
        (4, [218, s, (charge_level sys pt rx).capacity, (charge_level sys pt rx).tim]) ∧
      (charge_level sys pt rx).status =
        (if (charge_level sys pt rx).capacity = 100 ∧ (charge_level sys pt rx).tim = 0
         then STAT_EXT_POWER else s) ∧
      ((charge_level sys pt rx).status = STAT_DISCHARGING ∨
        (charge_level sys pt rx).status = STAT_CHARGING ∨
        (charge_level sys pt rx).status = STAT_EXT_POWER) ∧
      (0 ≤ (charge_level sys pt rx).capacity ∧ (charge_level sys pt rx).capacity ≤ 100 ∧
        0 ≤ (charge_level sys pt rx).tim → data_model (charge_level sys pt rx))) := by
  rcases charge_level_dm_cases sys pt rx hav with h | ⟨m, s, c, t, hm, hreq, hlen, hsc, hs, h⟩
  · left
    rw [h]
    exact ⟨rfl, by decide⟩
  · right
    rw [h]
    have hs3 : s = STAT_DISCHARGING ∨ s = STAT_CHARGING ∨ s = STAT_EXT_POWER := by
      simp only [STAT_DISCHARGING, STAT_CHARGING, STAT_EXT_POWER]
      omega
    have hst : (if c = 100 ∧ t = 0 then (2 : Int) else s) = STAT_DISCHARGING ∨
        (if c = 100 ∧ t = 0 then (2 : Int) else s) = STAT_CHARGING ∨
        (if c = 100 ∧ t = 0 then (2 : Int) else s) = STAT_EXT_POWER := by
      simp only [STAT_DISCHARGING, STAT_CHARGING, STAT_EXT_POWER]
      split_ifs
      · simp
      · rcases hs with rfl | rfl | rfl <;> simp
    refine ⟨m, s, hm, hreq, hlen, hs3, hsc, rfl, hst, ?_⟩
    intro hr
    unfold data_model
    exact ⟨Or.inl ⟨hr.1, hr.2.1⟩, hr.2.2, Or.inr hst⟩

theorem charge_level_reading_shape_witness :
    dmPlugin.pt_batt_avail = true ∧
    ((charge_level idleBattSys dmPlugin (some "218|1|50|30|".toList) =
        { capacity := -1, status := STAT_UNKNOWN, tim := 0 } ∧
      data_model (charge_level idleBattSys dmPlugin (some "218|1|50|30|".toList))) ∨
    (∃ msg s, some "218|1|50|30|".toList = some msg ∧ dmPlugin.requester = true ∧
      (0 < msg.length ∧ msg.length < 100) ∧
      (s = STAT_DISCHARGING ∨ s = STAT_CHARGING ∨ s = STAT_EXT_POWER) ∧
      sscanf4 (cstr msg) =
        (4, [218, s, (charge_level idleBattSys dmPlugin (some "218|1|50|30|".toList)).capacity,
          (charge_level idleBattSys dmPlugin (some "218|1|50|30|".toList)).tim]) ∧
      (charge_level idleBattSys dmPlugin (some "218|1|50|30|".toList)).status =
        (if (charge_level idleBattSys dmPlugin (some "218|1|50|30|".toList)).capacity = 100 ∧
            (charge_level idleBattSys dmPlugin (some "218|1|50|30|".toList)).tim = 0
         then STAT_EXT_POWER else s) ∧
      ((charge_level idleBattSys dmPlugin (some "218|1|50|30|".toList)).status
          = STAT_DISCHARGING ∨
        (charge_level idleBattSys dmPlugin (some "218|1|50|30|".toList)).status
          = STAT_CHARGING ∨
        (charge_level idleBattSys dmPlugin (some "218|1|50|30|".toList)).status
          = STAT_EXT_POWER) ∧
      (0 ≤ (charge_level idleBattSys dmPlugin (some "218|1|50|30|".toList)).capacity ∧
        (charge_level idleBattSys dmPlugin (some "218|1|50|30|".toList)).capacity ≤ 100 ∧
        0 ≤ (charge_level idleBattSys dmPlugin (some "218|1|50|30|".toList)).tim →
        data_model (charge_level idleBattSys dmPlugin (some "218|1|50|30|".toList))))) ∧
    charge_level idleBattSys dmPlugin (some "218|1|50|30|".toList) =
      { capacity := 50, status := STAT_CHARGING, tim := 30 } ∧
    data_model (charge_level idleBattSys dmPlugin (some "218|1|50|30|".toList)) :=
  ⟨rfl, charge_level_reading_shape idleBattSys dmPlugin (some "218|1|50|30|".toList) rfl,
   by decide, by decide⟩

/-- C7 as stated fails: the record `218|1|500|-5|` is accepted and yields a
Reading with capacity 500 and minutes -5, outside the data model. -/
theorem out_of_range_record_is_passed_on :
    charge_level idleBattSys dmPlugin (some "218|1|500|-5|".toList) =
      { capacity := 500, status := STAT_CHARGING, tim := -5 } ∧
    ¬ data_model (charge_level idleBattSys dmPlugin (some "218|1|500|-5|".toList)) :=
  ⟨by decide, by decide⟩

/-! ## The event-driven loop -/

/-- Once `sscanf` has converted all four fields, the previous contents of the
locals of `run` play no role. -/
theorem run_iter_four_fields (g g' : Int × Int × Int × Int) (poll : Int) (msg : List Char)
    (m s c t : Int) (h : sscanf4 (cstr msg) = (4, [m, s, c, t])) :
    run_iter g poll (some msg) = run_iter g' poll (some msg) := by
  unfold run_iter
  simp only [h, run_locals, List.getD_cons_zero, List.getD_cons_succ]

/-- C8 (evaluation at the failing input): a message whose magic field is 0
instead of 218 is applied by `run` (amber icon at 50 %, tooltip set) whatever
the previous contents of its locals, while `update_icon` ignores the same
record; and a message with a single field lets `run` act on the indeterminate
values of `state`, `capacity` and `time`. -/
theorem run_applies_record_with_wrong_magic :
    (∀ g, run_iter g 1 (some "0|1|50|30|".toList) =
      [UICall.draw_icon 50 0.95 0.64 0 1,
       UICall.set_tooltip_text "Charging : 50%\nTime remaining : 30 minutes".toList]) ∧
    update_icon idleBattSys dmPlugin (some "0|1|50|30|".toList) = [] ∧
    run_iter (0, 0, 15, 0) 1 (some "218".toList) =
      [UICall.draw_icon 15 1 0 0 0, UICall.set_tooltip_text "Discharging : 15%".toList] :=
  ⟨fun g => (run_iter_four_fields g (0, 0, 0, 0) 1 _ 0 1 50 30 (by decide)).trans (by rfl),
   by decide, by rfl⟩

/-- One iteration of `run` and `update_icon` make the same calls for a message
of 1..99 bytes that `sscanf` reads as the four fields of a valid record. -/
theorem run_agrees_scanned (g : Int × Int × Int × Int) (sys : BattSys)
    (pt : PtBattPlugin) (poll : Int) (msg : List Char) (s c t : Int)
    (hav : pt.pt_batt_avail = true) (hreq : pt.requester = true) (hpoll : 0 < poll)
    (hs : s = STAT_DISCHARGING ∨ s = STAT_CHARGING ∨ s = STAT_EXT_POWER)
    (hlen : 0 < msg.length ∧ msg.length < 100)
    (hsc : sscanf4 (cstr msg) = (4, [218, s, c, t])) :
    run_iter g poll (some msg) = update_icon sys pt (some msg) := by
  have hcl := charge_level_scanned sys pt msg s c t hav hreq hs hlen hsc
  unfold update_icon
  rw [hcl]
  unfold run_iter
  simp only [hsc, run_locals, List.getD_cons_zero, List.getD_cons_succ]
  have hp1 : ¬ poll < 0 := by omega
  have hp2 : ¬ poll = 0 := by omega
  simp only [hp1, hp2, if_false]
  simp only [STAT_DISCHARGING, STAT_CHARGING, STAT_EXT_POWER, STAT_UNKNOWN] at hs ⊢
  by_cases h : c = 100 ∧ t = 0
  · obtain ⟨rfl, rfl⟩ := h
    rcases hs with rfl | rfl | rfl <;> simp
  · rcases hs with rfl | rfl | rfl <;> simp [h]

/-- What one iteration of `run` does with a message that `sscanf` reads as the
four fields of a valid record, whatever its length: it draws the record's
capacity and sets a tooltip. -/
theorem run_iter_applies_scanned (g : Int × Int × Int × Int) (poll : Int) (msg : List Char)
    (s c t : Int) (hpoll : 0 < poll)
    (hs : s = STAT_DISCHARGING ∨ s = STAT_CHARGING ∨ s = STAT_EXT_POWER)
    (hsc : sscanf4 (cstr msg) = (4, [218, s, c, t])) :
    ∃ r gr b powered str,
      run_iter g poll (some msg) =
        [UICall.draw_icon c r gr b powered, UICall.set_tooltip_text str] := by
  unfold run_iter
  simp only [hsc, run_locals, List.getD_cons_zero, List.getD_cons_succ]
  have hp1 : ¬ poll < 0 := by omega
  have hp2 : ¬ poll = 0 := by omega
  simp only [hp1, hp2, if_false]
  simp only [STAT_DISCHARGING, STAT_CHARGING, STAT_EXT_POWER, STAT_UNKNOWN] at hs ⊢
  by_cases h : c = 100 ∧ t = 0
  · obtain ⟨rfl, rfl⟩ := h
    rcases hs with rfl | rfl | rfl <;> simp
  · rcases hs with rfl | rfl | rfl
    · by_cases h20 : c ≤ 20 <;> simp [h, h20]
    · simp [h]
    · simp [h]

/-- C9 (amended): for every well-formed record (four `int` fields, magic 218,
state 0, 1 or 2, any capacity and minutes) that arrives as a message of fewer
than 100 bytes, the toolkit calls made by one iteration of `run` (level,
colour, overlay flag, tooltip) are the ones `update_icon` makes for the Reading
`charge_level` returns from the same message, the ExternalPower override
included; for such a record of 100 to 199 bytes `run` still draws it while
`update_icon` makes no call; every record printed as `%d|%d|%d|%d|` from
32-bit values is shorter than 100 bytes, so the two modes agree on it. -/
theorem run_agrees_with_update_icon (g : Int × Int × Int × Int) (sys : BattSys)
    (pt : PtBattPlugin) (poll : Int) (msg : List Char) (s c t : Int)
    (hav : pt.pt_batt_avail = true) (hreq : pt.requester = true) (hpoll : 0 < poll)
    (hs : s = STAT_DISCHARGING ∨ s = STAT_CHARGING ∨ s = STAT_EXT_POWER)
    (hsc : sscanf4 (cstr msg) = (4, [218, s, c, t])) :
    (msg.length < 100 → run_iter g poll (some msg) = update_icon sys pt (some msg)) ∧
    (100 ≤ msg.length → msg.length < 200 →
      update_icon sys pt (some msg) = [] ∧
      ∃ r gr b powered str,
        run_iter g poll (some msg) =
          [UICall.draw_icon c r gr b powered, UICall.set_tooltip_text str]) ∧
    (isInt32 c → isInt32 t →
      (render_record 218 s c t).length < 100 ∧
      run_iter g poll (some (render_record 218 s c t)) =
        update_icon sys pt (some (render_record 218 s c t))) := by
  refine ⟨?_, ?_, ?_⟩
  · intro hlt
    exact run_agrees_scanned g sys pt poll msg s c t hav hreq hpoll hs
      ⟨scanned_length_pos msg _ hsc, hlt⟩ hsc
  · intro hlong _
    refine ⟨update_icon_unknown sys pt _ ?_, run_iter_applies_scanned g poll msg s c t hpoll hs hsc⟩
    rw [charge_level_long sys pt msg hav hlong]
  · intro hc ht
    obtain ⟨hlen, hr⟩ := render_record_scanned s c t hs hc ht
    exact ⟨hlen.2, run_agrees_scanned g sys pt poll _ s c t hav hreq hpoll hs hlen hr⟩

theorem run_agrees_with_update_icon_witness :
    (0 : Int) < 1 ∧
    (STAT_DISCHARGING = STAT_DISCHARGING ∨ STAT_DISCHARGING = STAT_CHARGING ∨
      STAT_DISCHARGING = STAT_EXT_POWER) ∧
    sscanf4 (cstr "218|0|100|0|".toList) = (4, [218, STAT_DISCHARGING, 100, 0]) ∧
    "218|0|100|0|".toList.length < 100 ∧
    update_icon idleBattSys dmPlugin (some "218|0|100|0|".toList) =
      [UICall.draw_icon 100 0 0.85 0 2,
       UICall.set_tooltip_text "Charged : 100%\nOn external power".toList] ∧
    run_iter (7, 7, 7, 7) 1 (some "218|0|100|0|".toList) =
      update_icon idleBattSys dmPlugin (some "218|0|100|0|".toList) :=
  ⟨by decide, Or.inl rfl, by decide, by decide, by rfl,
   (run_agrees_with_update_icon (7, 7, 7, 7) idleBattSys dmPlugin 1 "218|0|100|0|".toList
     STAT_DISCHARGING 100 0 rfl rfl (by decide) (Or.inl rfl) (by decide)).1 (by decide)⟩

/-- C9 as stated fails: on the well-formed 102-byte record `218|0|0...0100|0|`
one iteration of `run` draws "Charged : 100%" in green with the plug overlay,
while `update_icon` makes no call, because `charge_level` only parses messages
of fewer than 100 bytes. -/
theorem run_and_update_icon_differ_on_long_record :
    longRecord.length = 102 ∧ has_wire_form longRecord = true ∧
    sscanf4 (cstr longRecord) = (4, [218, 0, 100, 0]) ∧
    run_iter (0, 0, 0, 0) 1 (some longRecord) =
      [UICall.draw_icon 100 0 0.85 0 2,
       UICall.set_tooltip_text "Charged : 100%\nOn external power".toList] ∧
    update_icon idleBattSys dmPlugin (some longRecord) = [] :=
  ⟨by decide, by decide, by decide, by rfl, by decide⟩

/-! ## Native battery query -/

theorem char_toNat_inj {a b : Char} (h : a.toNat = b.toNat) : a = b := by
  rw [← Char.ofNat_toNat a, ← Char.ofNat_toNat b, h]

theorem tolower_eq_NUL (c : Char) : tolower c = NUL ↔ c = NUL := by
  have hup : ∀ n, n < 91 → Char.ofNat (n + 32) ≠ NUL := by decide
  have hnul : NUL.toNat = 0 := by decide
  unfold tolower
  split_ifs with h
  · simp only [Bool.and_eq_true, decide_eq_true_eq] at h
    constructor
    · intro h1
      exact absurd h1 (hup c.toNat (by omega))
    · intro h1
      rw [h1, hnul] at h
      omega
  · exact Iff.rfl

theorem strcasecmp_eq_zero (a b : List Char) :
    strcasecmp a b = 0 ↔ (cstr a).map tolower = (cstr b).map tolower := by
  have hsub : ∀ x y : Char, ((x.toNat : Int) - (y.toNat : Int) = 0) ↔ x = y := by
    intro x y
    constructor
    · intro h
      exact char_toNat_inj (by omega)
    · rintro rfl
      omega
  induction a generalizing b with
  | nil =>
    cases b with
    | nil => simp [strcasecmp, cstr]
    | cons y ys =>
      simp only [strcasecmp, cstr, hsub, List.map_nil]
      by_cases hy : y = NUL
      · subst hy
        simp
      · have : tolower NUL ≠ tolower y := by
          intro h
          exact hy ((tolower_eq_NUL y).1 (h ▸ (tolower_eq_NUL NUL).2 rfl))
        simp [hy, this]
  | cons x xs ih =>
    cases b with
    | nil =>
      simp only [strcasecmp, cstr, hsub, List.map_nil]
      by_cases hx : x = NUL
      · subst hx
        simp
      · have : tolower x ≠ tolower NUL := by
          intro h
          exact hx ((tolower_eq_NUL x).1 (h.trans ((tolower_eq_NUL NUL).2 rfl)))
        simp [hx, this]
    | cons y ys =>
      simp only [strcasecmp, cstr]
      by_cases hxy : tolower x = tolower y
      · simp only [hxy, ne_eq, not_true_eq_false, if_false]
        by_cases hx : x = NUL
        · subst hx
          have hy : y = NUL :=
            (tolower_eq_NUL y).1 (hxy ▸ (tolower_eq_NUL NUL).2 rfl)
          simp [hy]
        · have hy : y ≠ NUL := by
            intro hy
            subst hy
            exact hx ((tolower_eq_NUL x).1 (hxy.trans ((tolower_eq_NUL NUL).2 rfl)))
          simp only [hx, hy, if_false, List.map_cons, hxy, List.cons.injEq, true_and]
          exact ih ys
      · simp only [ne_eq, hxy, not_false_eq_true, if_true, hsub, false_iff]
        intro h
        by_cases hx : x = NUL
        · subst hx
          by_cases hy : y = NUL
          · subst hy
            exact hxy rfl
          · simp [hy] at h
        · by_cases hy : y = NUL
          · simp [hx, hy] at h
          · simp only [hx, hy, if_false, List.map_cons, List.cons.injEq] at h
            exact hxy h.1

/-- C10: with no device-manager feed, `charge_level` on a battery handle
refreshes the device and returns its percentage as capacity, its seconds
divided by 60 with truncation as minutes, and as status ExternalPower when the
device is charging and its state string equals "full" ignoring case, Charging
when it is charging with any other state string, and Discharging when it is
not charging; without a battery handle it returns -1 with status Unknown and
minutes 0. -/
theorem charge_level_native (sys : BattSys) (pt : PtBattPlugin) (rx : Option (List Char))
    (hav : pt.pt_batt_avail = false) :
    charge_level sys pt rx =
      (match pt.batt with
       | none => { capacity := -1, status := STAT_UNKNOWN, tim := 0 }
       | some b =>
         { capacity := (sys.battery_update b).percentage,
           status :=
             if sys.battery_is_charging (sys.battery_update b) = true then
               (if (cstr (sys.battery_update b).state).map tolower = "full".toList then
                  STAT_EXT_POWER
                else STAT_CHARGING)
             else STAT_DISCHARGING,
           tim := Int.tdiv (sys.battery_update b).seconds 60 }) ∧
    (∀ b, pt.batt = some b →
      (charge_level sys pt rx).tim.natAbs = (sys.battery_update b).seconds.natAbs / 60 ∧
      (0 ≤ (sys.battery_update b).seconds → 0 ≤ (charge_level sys pt rx).tim) ∧
      ((sys.battery_update b).seconds ≤ 0 → (charge_level sys pt rx).tim ≤ 0)) := by
  have hfull : (cstr "full".toList).map tolower = "full".toList := by decide
  have hmain : charge_level sys pt rx =
      (match pt.batt with
       | none => { capacity := -1, status := STAT_UNKNOWN, tim := 0 }
       | some b =>
         { capacity := (sys.battery_update b).percentage,
           status :=
             if sys.battery_is_charging (sys.battery_update b) = true then
               (if (cstr (sys.battery_update b).state).map tolower = "full".toList then
                  STAT_EXT_POWER
                else STAT_CHARGING)
             else STAT_DISCHARGING,
           tim := Int.tdiv (sys.battery_update b).seconds 60 }) := by
    unfold charge_level
    simp only [hav, Bool.false_eq_true, if_false]
    cases pt.batt with
    | none => rfl
    | some b =>
      simp only [strcasecmp_eq_zero, hfull]
  refine ⟨hmain, ?_⟩
  intro b hb
  rw [hmain, hb]
  simp only
  refine ⟨?_, ?_, ?_⟩
  · rw [Int.natAbs_tdiv]
    rfl
  · intro h
    exact Int.tdiv_nonneg h (by norm_num)
  · intro h
    have := Int.tdiv_nonneg (show 0 ≤ -(sys.battery_update b).seconds by omega)
      (show (0 : Int) ≤ 60 by norm_num)
    rw [Int.neg_tdiv] at this
    omega

theorem charge_level_native_witness :
    ({ batt := some { state := "Full".toList, seconds := 7250, percentage := 100 },
       pt_batt_avail := false, requester := false } : PtBattPlugin).pt_batt_avail = false ∧
    charge_level { battery_update := fun b => b, battery_is_charging := fun _ => true }
      { batt := some { state := "Full".toList, seconds := 7250, percentage := 100 },
        pt_batt_avail := false, requester := false } none =
      { capacity := 100, status := STAT_EXT_POWER, tim := 120 } :=
  ⟨rfl,
   (charge_level_native { battery_update := fun b => b, battery_is_charging := fun _ => true }
      { batt := some { state := "Full".toList, seconds := 7250, percentage := 100 },
        pt_batt_avail := false, requester := false } none rfl).1.trans (by decide)⟩

end PtBatt
